import Mathlib

/-!
# Verification of the osmpbf streaming decoder

Shallow embedding of the Go package `osmpbf` (file `decode_data.go`): a
streaming decoder for OpenStreetMap PBF files.  Go `int64` arithmetic is
modelled by `Int` with an explicit two's-complement wrap (`wrap64`);
Go `float64` coordinates (`1e-9 * float64 x`) are modelled by the exact
rational `x / 10^9`; Go `time.Time` values are modelled by their
nanoseconds-since-epoch count, with `none` standing for the zero value
`time.Time{}`; a Go panic (index out of range, or an explicit `panic`)
is modelled by `Option`/`Except` failure.
-/

namespace Osmpbf

/-- Two's-complement wrap of an integer into the `int64` range,
modelling Go `int64` overflow. -/
def wrap64 (z : Int) : Int := (z + 2 ^ 63) % 2 ^ 64 - 2 ^ 63

/-- The value fits in a Go `int64`. -/
abbrev isInt64 (z : Int) : Prop := -(2 ^ 63) ≤ z ∧ z < 2 ^ 63

/-- Prefix sum of the first `i+1` entries of a delta list. -/
def sumTo (l : List Int) (i : Nat) : Int := (l.take (i + 1)).sum

/-- Delta decoding as the Go loops perform it: running accumulator with
`int64` wraparound (`nodeID = refs[index] + nodeID`). -/
def deltaDecodeFrom (acc : Int) : List Int → List Int
  | [] => []
  | d :: ds =>
      let v := wrap64 (acc + d)
      v :: deltaDecodeFrom v ds

/-- Delta decoding from the initial accumulator `0`. -/
def deltaDecode (l : List Int) : List Int := deltaDecodeFrom 0 l

/-! ## Entity data model (`Node`, `Way`, `Relation`, `Member`) -/

/-- Member reference type; the Go `MemberType` enumeration whose zero
value (`iota`) is `NodeType`. -/
inductive MemberType where
  | NodeType
  | WayType
  | RelationType
deriving DecidableEq, Repr, Inhabited

/-- Relation member: delta-decoded ref-id, reference type, role string. -/
structure Member where
  id : Int
  type : MemberType
  role : String
deriving DecidableEq, Repr, Inhabited

/-- Emitted OSM node.  `lat`/`lon` model the Go `float64` coordinates by
exact rationals; `timestampNs` models the Go `time.Time` by its
nanoseconds since the epoch, with `none` for the zero value `time.Time\x7b\x7d`. -/
structure Node where
  id : Int
  lat : ℚ
  lon : ℚ
  tags : List (String × String)
  timestampNs : Option Int
deriving DecidableEq, Repr, Inhabited

/-- Emitted OSM way. -/
structure Way where
  id : Int
  tags : List (String × String)
  nodeIDs : List Int
  timestampNs : Option Int
deriving DecidableEq, Repr, Inhabited

/-- Emitted OSM relation. -/
structure Relation where
  id : Int
  tags : List (String × String)
  members : List Member
  timestampNs : Option Int
deriving DecidableEq, Repr, Inhabited

/-! ## Block-local decoding context and scaling -/

/-- The per-`PrimitiveBlock` values read at the top of each parse
function: the stringtable and the scaling parameters (with their
protobuf defaults already applied by the getters). -/
structure BlockCtx where
  st : List String
  granularity : Int
  latOffset : Int
  lonOffset : Int
  dateGranularity : Int
deriving DecidableEq, Repr, Inhabited

/-- Integer nanodegrees of a coordinate:
`latOffset + (granularity * lat)` computed in Go `int64` arithmetic. -/
def coordNanos (off gran c : Int) : Int := wrap64 (off + wrap64 (gran * c))

/-- Coordinate in degrees: `1e-9 * float64(off + granularity*c)`,
the float modelled by the exact rational. -/
def coord (off gran c : Int) : ℚ := (coordNanos off gran c : ℚ) / 1000000000

/-- Stored timestamp to nanoseconds since the epoch:
`time.Duration(t*dateGranularity) * time.Millisecond`, both
multiplications in Go `int64` arithmetic. -/
def timeNanos (t dg : Int) : Int := wrap64 (wrap64 (t * dg) * 1000000)

/-- Modelled from the spec: `extractTags` is defined in a repository
file not present under `src/`.  Per the spec, tags map
`stringtable[keys[i]]` to `stringtable[vals[i]]` in positional
correspondence. -/
def extractTags (st : List String) (keys vals : List Int) : List (String × String) :=
  List.zipWith (fun k v => (st.getD k.toNat "", st.getD v.toNat "")) keys vals

/-- Modelled from the spec: the `tagUnpacker.next` method is defined in
a repository file not present under `src/`.  Per the spec it reads
`(key, value)` index pairs from the interleaved `keys_vals` stream until
a `0` sentinel (which it skips) or the end of the stream, returning the
decoded tags and the remaining stream.  (A trailing lone key index, which
invariant 5 of the spec rules out, is given an empty value.) -/
def unpackTags (st : List String) : List Int → (List (String × String)) × List Int
  | [] => ([], [])
  | k :: rest =>
      if k = 0 then ([], rest)
      else
        match rest with
        | [] => ([(st.getD k.toNat "", "")], [])
        | v :: rest2 =>
            let p := unpackTags st rest2
            ((st.getD k.toNat "", st.getD v.toNat "") :: p.1, p.2)

/-! ## Sparse nodes (`parseNodes`) -/

/-- Input shape of one sparse `Node` protobuf entry. -/
structure NodeRaw where
  id : Int
  keys : List Int
  vals : List Int
  lat : Int
  lon : Int
  info : Option Int
deriving DecidableEq, Repr, Inhabited

/-- `parseNodes`: the Go loop computes the node, appends it with the
zero-value timestamp (the `info` field is never read), and then
unconditionally executes `panic("Please test this first")`, modelled as
`Except.error`.  An empty slice skips the loop and succeeds. -/
def parseNodes (ctx : BlockCtx) : List NodeRaw → Except String (List Node)
  | [] => Except.ok []
  | node :: _ =>
      let _emitted : Node :=
        { id := node.id
          lat := coord ctx.latOffset ctx.granularity node.lat
          lon := coord ctx.lonOffset ctx.granularity node.lon
          tags := extractTags ctx.st node.keys node.vals
          timestampNs := none }
      Except.error "Please test this first"

/-! ## Dense nodes (`parseDenseNodes`) -/

/-- Input shape of a `DenseNodes` group.  `timestamps = none` models a
nil `denseinfo`/`timestamp` slice. -/
structure DenseRaw where
  id : List Int
  lat : List Int
  lon : List Int
  timestamps : Option (List Int)
  keysVals : List Int
deriving DecidableEq, Repr, Inhabited

/-- The `parseDenseNodes` loop: running `int64` accumulators for id,
lat, lon, timestamp; the tag unpacker cursor threads through the
`keys_vals` stream.  Indexing `lats[index]`, `lons[index]` or
`timestamps[index]` past the end of the slice is a Go panic, modelled
as `none`. -/
def parseDenseLoop (ctx : BlockCtx) (tsP : Bool) :
    Int → Int → Int → Int → List Int → List Int → List Int → List Int → List Int →
    Option (List Node)
  | _, _, _, _, _, [], _, _, _ => some []
  | idA, latA, lonA, tsA, kv, i :: is, lats, lons, tss =>
      match lats, lons with
      | la :: lats2, lo :: lons2 =>
          let idA2 := wrap64 (idA + i)
          let latA2 := wrap64 (latA + la)
          let lonA2 := wrap64 (lonA + lo)
          let tk := unpackTags ctx.st kv
          if tsP then
            match tss with
            | t :: tss2 =>
                let tsA2 := wrap64 (tsA + t)
                let nd : Node :=
                  { id := idA2
                    lat := coord ctx.latOffset ctx.granularity latA2
                    lon := coord ctx.lonOffset ctx.granularity lonA2
                    tags := tk.1
                    timestampNs := some (timeNanos tsA2 ctx.dateGranularity) }
                (parseDenseLoop ctx tsP idA2 latA2 lonA2 tsA2 tk.2 is lats2 lons2 tss2).map
                  (fun l => nd :: l)
            | [] => none
          else
            let nd : Node :=
              { id := idA2
                lat := coord ctx.latOffset ctx.granularity latA2
                lon := coord ctx.lonOffset ctx.granularity lonA2
                tags := tk.1
                timestampNs := none }
            (parseDenseLoop ctx tsP idA2 latA2 lonA2 tsA tk.2 is lats2 lons2 tss).map
              (fun l => nd :: l)
      | _, _ => none

/-- `parseDenseNodes`: timestamps participate exactly when the
`denseinfo.timestamp` slice is non-nil. -/
def parseDenseNodes (ctx : BlockCtx) (dn : DenseRaw) : Option (List Node) :=
  parseDenseLoop ctx dn.timestamps.isSome 0 0 0 0 dn.keysVals dn.id dn.lat dn.lon
    (dn.timestamps.getD [])

/-! ## Ways (`parseWays`) -/

/-- Input shape of one `Way` protobuf entry; `info` carries the
optional `Info.timestamp`. -/
structure WayRaw where
  id : Int
  keys : List Int
  vals : List Int
  refs : List Int
  info : Option Int
deriving DecidableEq, Repr, Inhabited

/-- `parseWays`: `id` is absolute, `refs` is delta-decoded into
`nodeIDs`, tags come from `extractTags`, and the timestamp is converted
from `info` when present (`time.Time\x7b\x7d`, i.e. `none`, otherwise). -/
def parseWays (ctx : BlockCtx) (ways : List WayRaw) : List Way :=
  ways.map (fun w =>
    { id := w.id
      tags := extractTags ctx.st w.keys w.vals
      nodeIDs := deltaDecode w.refs
      timestampNs := w.info.map (fun t => timeNanos t ctx.dateGranularity) })

/-! ## Relations (`extractMembers`, `parseRelations`) -/

/-- Input shape of one `Relation` protobuf entry. -/
structure RelationRaw where
  id : Int
  keys : List Int
  vals : List Int
  info : Option Int
  memids : List Int
  types : List Int
  rolesSid : List Int
deriving DecidableEq, Repr, Inhabited

/-- The Go `switch` over the member type enumeration
(`NODE = 0`, `WAY = 1`, `RELATION = 2`): a value outside the
enumeration leaves `memType` at its zero value `NodeType`. -/
def memberTypeOf (t : Int) : MemberType :=
  if t = 1 then MemberType.WayType
  else if t = 2 then MemberType.RelationType
  else MemberType.NodeType

/-- The `extractMembers` loop: iterates over `memids`, reading
`types[index]` and `stringTable[roleIDs[index]]`; an out-of-range index
is a Go panic, modelled as `none`.  `memids` is delta-decoded through
the running accumulator. -/
def extractMembersLoop (st : List String) :
    Int → List Int → List Int → List Int → Option (List Member)
  | _, [], _, _ => some []
  | acc, d :: ds, types, roles =>
      match types, roles with
      | t :: ts, r :: rs =>
          let memID := wrap64 (acc + d)
          if h : 0 ≤ r ∧ r.toNat < st.length then
            (extractMembersLoop st memID ds ts rs).map
              (fun ms => ({ id := memID, type := memberTypeOf t,
                            role := st.get ⟨r.toNat, h.2⟩ } : Member) :: ms)
          else none
      | _, _ => none

/-- `extractMembers` starting from the zero accumulator. -/
def extractMembers (st : List String) (rel : RelationRaw) : Option (List Member) :=
  extractMembersLoop st 0 rel.memids rel.types rel.rolesSid

/-- `parseRelations`: per relation, tags, members and the optional
timestamp; a panic inside `extractMembers` aborts the whole block
(modelled as `none`). -/
def parseRelations (ctx : BlockCtx) : List RelationRaw → Option (List Relation)
  | [] => some []
  | rel :: rest =>
      match extractMembers ctx.st rel with
      | none => none
      | some ms =>
          let r : Relation :=
            { id := rel.id
              tags := extractTags ctx.st rel.keys rel.vals
              members := ms
              timestampNs := rel.info.map (fun t => timeNanos t ctx.dateGranularity) }
          (parseRelations ctx rest).map (fun l => r :: l)

/-! ## Blob payload extraction (`getData`) -/

/-- Blob message: optional `raw` bytes, optional `zlib_data` bytes, and
the advertised `raw_size` (an `int32`).  Bytes are modelled as `List Nat`. -/
structure Blob where
  raw : Option (List Nat)
  zlibData : Option (List Nat)
  rawSize : Int
deriving DecidableEq, Repr, Inhabited

/-- Errors of `getData`. -/
inductive BlobError where
  | corruptBlob
  | unsupportedCompression
  | zlibError
deriving DecidableEq, Repr, Inhabited

/-- `getData`: return `raw` if present; else zlib-decompress
`zlib_data` (the zlib library is external and is passed in as
`unzlib`), failing `corruptBlob` when the decompressed length differs
from `raw_size`; else fail with the unknown-blob-data error. -/
def getData (unzlib : List Nat → Except Unit (List Nat)) (b : Blob) :
    Except BlobError (List Nat) :=
  match b.raw with
  | some r => Except.ok r
  | none =>
      match b.zlibData with
      | some z =>
          match unzlib z with
          | Except.error _ => Except.error BlobError.zlibError
          | Except.ok d =>
              if (d.length : Int) ≠ b.rawSize then Except.error BlobError.corruptBlob
              else Except.ok d
      | none => Except.error BlobError.unsupportedCompression

/-! ## Reader framing limits (`readBlobHeaderSize`, `readBlobHeader`) -/

def maxBlobHeaderSize : Nat := 64 * 1024

def maxBlobSize : Int := 32 * 1024 * 1024

/-- Errors of the framing reads. -/
inductive ReadError where
  | oversizedHeader
  | oversizedBlob
deriving DecidableEq, Repr, Inhabited

/-- `binary.BigEndian.Uint32` over the four bytes just read. -/
def beUint32 (b0 b1 b2 b3 : Nat) : Nat :=
  b0 * 2 ^ 24 + b1 * 2 ^ 16 + b2 * 2 ^ 8 + b3

/-- `readBlobHeaderSize` after a successful 4-byte read: parse the
big-endian size and reject sizes `>= 64*1024`. -/
def readBlobHeaderSize (b0 b1 b2 b3 : Nat) : Except ReadError Nat :=
  let size := beUint32 b0 b1 b2 b3
  if size ≥ maxBlobHeaderSize then Except.error ReadError.oversizedHeader
  else Except.ok size

/-- The datasize guard of `readBlobHeader` after a successful parse:
reject `datasize >= 32*1024*1024`. -/
def readBlobHeaderCheck (datasize : Int) : Except ReadError Int :=
  if datasize ≥ maxBlobSize then Except.error ReadError.oversizedBlob
  else Except.ok datasize

/-! ## Header validation (`Start` / `decodeOSMHeader`) -/

/-- Errors of the header phase of `Start`. -/
inductive StartError where
  | unexpectedBlockType (t : String)
  | unsupportedFeature (f : String)
deriving DecidableEq, Repr, Inhabited

/-- The decoder capability set `parseCapabilities`. -/
def parseCapabilities (s : String) : Bool :=
  s = "OsmSchema-V0.6" || s = "DenseNodes"

/-- `decodeOSMHeader` after a successful payload parse: scan
`required_features` in order and fail on the first feature the parser
does not have. -/
def decodeOSMHeaderFeatures (features : List String) : Except StartError Unit :=
  match features.find? (fun f => !parseCapabilities f) with
  | some f => Except.error (StartError.unsupportedFeature f)
  | none => Except.ok ()

/-- The header phase of `Start`: the first file block must have type
`"OSMHeader"`, and its required features must all be supported. -/
def startHeader (blockType : String) (features : List String) : Except StartError Unit :=
  if blockType = "OSMHeader" then decodeOSMHeaderFeatures features
  else Except.error (StartError.unexpectedBlockType blockType)

/-! ## The concurrent pipeline of `Start` and the `Decode` API

The reader produces a sequence of messages `(position, blob-or-error)`;
the dispatcher writes message `i` to worker `i % n`; each worker maps
the block decoder over its FIFO input in order; the serializer reads
worker `j % n` for `j = 0, 1, 2, …`, splices batches into the output
stream, and terminates on the first error pair.  Channels are FIFO, so
a worker queue is a list; a receive from a closed (exhausted) channel
yields the zero pair, which the serializer skips.  The decoded batch of
a block is a pure function of the blob, so the whole pipeline is
modelled as a deterministic function of the message list. -/

/-- One worker iteration on one message: pass an input error through as
is, otherwise decode the blob (sending the batch or the decode error). -/
def workerStep {α β ε : Type} (dec : α → Except ε (List β)) :
    Int × Except ε α → Int × Except ε (List β)
  | (p, Except.error e) => (p, Except.error e)
  | (p, Except.ok blob) => (p, dec blob)

/-- The reader/dispatcher loop: message at dispatch index `i` is
appended to the FIFO of worker `i % n`. -/
def dispatchLoop {γ : Type} (n : Nat) : Nat → List γ → (Nat → List γ) → (Nat → List γ)
  | _, [], qs => qs
  | i, m :: ms, qs =>
      dispatchLoop n (i + 1) ms (Function.update qs (i % n) (qs (i % n) ++ [m]))

/-- The serializer loop: read worker `j % n`, splice its batch
(tagging each entity with the block position), stop at the first error
pair; a read from an exhausted channel yields the zero pair and is
skipped.  The fuel `k` bounds the number of reads. -/
def drainLoop {β ε : Type} (n : Nat) :
    Nat → Nat → (Nat → List (Int × Except ε (List β))) → List (β × Int) × Option (Int × ε)
  | _, 0, _ => ([], none)
  | j, k + 1, outs =>
      match outs (j % n) with
      | [] => drainLoop n (j + 1) k outs
      | (p, Except.ok objs) :: q2 =>
          let r := drainLoop n (j + 1) k (Function.update outs (j % n) q2)
          (objs.map (fun o => (o, p)) ++ r.1, r.2)
      | (p, Except.error e) :: _ => ([], some (p, e))

/-- The full pipeline of `Start` for `n` workers: dispatch the reader
messages round-robin, let each worker map the block decoder over its
FIFO, and drain round-robin. -/
def pipelineRun {α β ε : Type} (n : Nat) (dec : α → Except ε (List β))
    (msgs : List (Int × Except ε α)) : List (β × Int) × Option (Int × ε) :=
  drainLoop n 0 msgs.length
    (fun w => ((dispatchLoop n 0 msgs (fun _ => [])) w).map (workerStep dec))

/-- Spec-side reference: sequential decoding in source-file order,
stopping at the first error.  `pipelineRun` is proved to refine this. -/
def seqRun {α β ε : Type} (dec : α → Except ε (List β)) :
    List (Int × Except ε α) → List (β × Int) × Option (Int × ε)
  | [] => ([], none)
  | m :: rest =>
      match workerStep dec m with
      | (p, Except.error e) => ([], some (p, e))
      | (p, Except.ok objs) =>
          let r := seqRun dec rest
          (objs.map (fun o => (o, p)) ++ r.1, r.2)

/-- Result of one `Decode()` call: an entity with its block position,
the terminal error with its block position, or end of stream (`io.EOF`
from a closed serializer channel). -/
inductive DecodeResult (β ε : Type) where
  | entity : β → Int → DecodeResult β ε
  | err : ε → Int → DecodeResult β ε
  | eof : DecodeResult β ε

/-- The `k`-th `Decode()` call against a terminated pipeline output:
the serializer channel delivers the entities, then the single error
pair, then is closed, so every later receive reports `io.EOF`. -/
def decodeAt {β ε : Type} (out : List (β × Int) × Option (Int × ε)) (k : Nat) :
    DecodeResult β ε :=
  match out.1.get? k with
  | some bp => DecodeResult.entity bp.1 bp.2
  | none =>
      match out.2 with
      | some pe => if k = out.1.length then DecodeResult.err pe.2 pe.1 else DecodeResult.eof
      | none => DecodeResult.eof

/-! ## Helper lemmas: wraparound and delta decoding -/

theorem wrap64_eq_self {z : Int} (h : isInt64 z) : wrap64 z = z := by
  unfold wrap64
  have h0 : (0 : Int) ≤ z + 2 ^ 63 := by linarith [h.1]
  have h1 : z + 2 ^ 63 < 2 ^ 64 := by
    have := h.2
    norm_num
    linarith
  rw [Int.emod_eq_of_lt h0 h1]
  ring

theorem sumTo_cons_zero (d : Int) (ds : List Int) : sumTo (d :: ds) 0 = d := by
  simp [sumTo]

theorem sumTo_cons_succ (d : Int) (ds : List Int) (i : Nat) :
    sumTo (d :: ds) (i + 1) = d + sumTo ds i := by
  simp [sumTo]

theorem deltaDecodeFrom_length (acc : Int) (l : List Int) :
    (deltaDecodeFrom acc l).length = l.length := by
  induction l generalizing acc with
  | nil => rfl
  | cons d ds ih => simp [deltaDecodeFrom, ih]

theorem deltaDecodeFrom_get? (acc : Int) (l : List Int) (i : Nat)
    (hi : i < l.length)
    (h : ∀ j, j < l.length → isInt64 (acc + sumTo l j)) :
    (deltaDecodeFrom acc l).get? i = some (acc + sumTo l i) := by
  induction l generalizing acc i with
  | nil => simp at hi
  | cons d ds ih =>
      have hd : wrap64 (acc + d) = acc + d := by
        have := h 0 (by simp)
        rw [sumTo_cons_zero] at this
        exact wrap64_eq_self this
      cases i with
      | zero =>
          simp [deltaDecodeFrom, hd, sumTo_cons_zero]
      | succ i =>
          have hi' : i < ds.length := by simpa using hi
          have h' : ∀ j, j < ds.length → isInt64 (acc + d + sumTo ds j) := by
            intro j hj
            have hh := h (j + 1) (by simpa using hj)
            rw [sumTo_cons_succ] at hh
            exact ⟨by linarith [hh.1], by linarith [hh.2]⟩
          have := ih (acc + d) i hi' h'
          simp only [deltaDecodeFrom, hd, List.get?_cons_succ]
          rw [this, sumTo_cons_succ]
          congr 1
          ring

theorem deltaDecode_get? (l : List Int) (i : Nat) (hi : i < l.length)
    (h : ∀ j, j < l.length → isInt64 (sumTo l j)) :
    (deltaDecode l).get? i = some (sumTo l i) := by
  have := deltaDecodeFrom_get? 0 l i hi (by intro j hj; simpa using h j hj)
  simpa [deltaDecode] using this

theorem coord_eq_of_isInt64 {off gran c : Int} (h1 : isInt64 (gran * c))
    (h2 : isInt64 (off + gran * c)) :
    coord off gran c = ((off + gran * c : Int) : ℚ) / 1000000000 := by
  unfold coord coordNanos
  rw [wrap64_eq_self h1, wrap64_eq_self h2]

theorem timeNanos_eq_of_isInt64 {t dg : Int} (h1 : isInt64 (t * dg))
    (h2 : isInt64 (t * dg * 1000000)) :
    timeNanos t dg = t * dg * 1000000 := by
  unfold timeNanos
  rw [wrap64_eq_self h1, wrap64_eq_self h2]

theorem parseCapabilities_bnot {f : String} :
    (!parseCapabilities f) = true ↔ f ≠ "OsmSchema-V0.6" ∧ f ≠ "DenseNodes" := by
  simp [parseCapabilities]

/-! ## Helper lemmas: the round-robin pipeline -/

theorem dispatchLoop_apply {γ : Type} (n : Nat) (ms : List γ) :
    ∀ (i : Nat) (qs : Nat → List γ) (w : Nat),
    dispatchLoop n i ms qs w = qs w ++ dispatchLoop n i ms (fun _ => []) w := by
  induction ms with
  | nil =>
      intro i qs w
      simp [dispatchLoop]
  | cons m ms ih =>
      intro i qs w
      show dispatchLoop n (i + 1) ms (Function.update qs (i % n) (qs (i % n) ++ [m])) w =
        qs w ++ dispatchLoop n (i + 1) ms
          (Function.update (fun _ => []) (i % n) ((fun _ => ([] : List γ)) (i % n) ++ [m])) w
      rw [ih (i + 1) (Function.update qs (i % n) (qs (i % n) ++ [m])) w,
        ih (i + 1) (Function.update (fun _ => [])
          (i % n) ((fun _ => ([] : List γ)) (i % n) ++ [m])) w]
      by_cases hw : w = i % n
      · subst hw
        rw [Function.update_same, Function.update_same]
        simp
      · rw [Function.update_noteq hw, Function.update_noteq hw]
        simp

theorem dispatchLoop_map {γ δ : Type} (n : Nat) (f : γ → δ) (ms : List γ) :
    ∀ (i : Nat) (qs : Nat → List γ),
    (fun w => (dispatchLoop n i ms qs w).map f) =
      dispatchLoop n i (ms.map f) (fun w => (qs w).map f) := by
  induction ms with
  | nil =>
      intro i qs
      rfl
  | cons m ms ih =>
      intro i qs
      show (fun w => (dispatchLoop n (i + 1) ms
          (Function.update qs (i % n) (qs (i % n) ++ [m])) w).map f) =
        dispatchLoop n (i + 1) (ms.map f)
          (Function.update (fun w => (qs w).map f) (i % n)
            ((fun w => (qs w).map f) (i % n) ++ [f m]))
      rw [ih (i + 1)]
      have hq : (fun w => (Function.update qs (i % n) (qs (i % n) ++ [m]) w).map f) =
          Function.update (fun w => (qs w).map f) (i % n)
            ((qs (i % n)).map f ++ [f m]) := by
        funext w
        by_cases hw : w = i % n
        · subst hw
          simp [Function.update_same]
        · simp [Function.update_noteq hw]
      rw [hq]

theorem drainLoop_succ {β ε : Type} (n j k : Nat)
    (outs : Nat → List (Int × Except ε (List β))) :
    drainLoop n j (k + 1) outs =
      match outs (j % n) with
      | [] => drainLoop n (j + 1) k outs
      | (p, Except.ok objs) :: q2 =>
          (objs.map (fun o => (o, p)) ++
            (drainLoop n (j + 1) k (Function.update outs (j % n) q2)).1,
           (drainLoop n (j + 1) k (Function.update outs (j % n) q2)).2)
      | (p, Except.error e) :: _ => ([], some (p, e)) := rfl

theorem drainLoop_read_ok {β ε : Type} (n j k : Nat)
    (outs : Nat → List (Int × Except ε (List β))) (p : Int) (objs : List β)
    (q2 : List (Int × Except ε (List β)))
    (h : outs (j % n) = (p, Except.ok objs) :: q2) :
    drainLoop n j (k + 1) outs =
      (objs.map (fun o => (o, p)) ++
        (drainLoop n (j + 1) k (Function.update outs (j % n) q2)).1,
       (drainLoop n (j + 1) k (Function.update outs (j % n) q2)).2) := by
  rw [drainLoop_succ, h]

theorem drainLoop_read_err {β ε : Type} (n j k : Nat)
    (outs : Nat → List (Int × Except ε (List β))) (p : Int) (e : ε)
    (q2 : List (Int × Except ε (List β)))
    (h : outs (j % n) = (p, Except.error e) :: q2) :
    drainLoop n j (k + 1) outs = ([], some (p, e)) := by
  rw [drainLoop_succ, h]

theorem seqRun_cons {α β ε : Type} (dec : α → Except ε (List β))
    (m : Int × Except ε α) (rest : List (Int × Except ε α)) :
    seqRun dec (m :: rest) =
      match workerStep dec m with
      | (p, Except.error e) => ([], some (p, e))
      | (p, Except.ok objs) =>
          (objs.map (fun o => (o, p)) ++ (seqRun dec rest).1, (seqRun dec rest).2) := rfl

theorem drain_dispatch_eq {α β ε : Type} (n : Nat) (dec : α → Except ε (List β))
    (msgs : List (Int × Except ε α)) :
    ∀ i, drainLoop n i msgs.length
        (dispatchLoop n i (msgs.map (workerStep dec)) (fun _ => [])) = seqRun dec msgs := by
  induction msgs with
  | nil =>
      intro i
      rfl
  | cons m rest ih =>
      intro i
      have hunf : dispatchLoop n i ((m :: rest).map (workerStep dec)) (fun _ => []) =
          dispatchLoop n (i + 1) (rest.map (workerStep dec))
            (Function.update (fun _ => []) (i % n) [workerStep dec m]) := rfl
      rw [List.length_cons, hunf]
      cases hsm : workerStep dec m with
      | mk p res =>
          cases res with
          | error e =>
              have hread : dispatchLoop n (i + 1) (rest.map (workerStep dec))
                  (Function.update (fun _ => []) (i % n) [(p, Except.error e)]) (i % n) =
                  (p, Except.error e) ::
                    dispatchLoop n (i + 1) (rest.map (workerStep dec))
                      (fun _ => []) (i % n) := by
                rw [dispatchLoop_apply, Function.update_same]
                rfl
              rw [drainLoop_read_err n i rest.length _ p e _ hread, seqRun_cons, hsm]
          | ok objs =>
              have hread : dispatchLoop n (i + 1) (rest.map (workerStep dec))
                  (Function.update (fun _ => []) (i % n) [(p, Except.ok objs)]) (i % n) =
                  (p, Except.ok objs) ::
                    dispatchLoop n (i + 1) (rest.map (workerStep dec))
                      (fun _ => []) (i % n) := by
                rw [dispatchLoop_apply, Function.update_same]
                rfl
              have hupd : Function.update (dispatchLoop n (i + 1) (rest.map (workerStep dec))
                    (Function.update (fun _ => []) (i % n) [(p, Except.ok objs)])) (i % n)
                    (dispatchLoop n (i + 1) (rest.map (workerStep dec))
                      (fun _ => []) (i % n)) =
                  dispatchLoop n (i + 1) (rest.map (workerStep dec)) (fun _ => []) := by
                funext w
                by_cases hw : w = i % n
                · subst hw
                  rw [Function.update_same]
                · rw [Function.update_noteq hw, dispatchLoop_apply,
                    Function.update_noteq hw]
                  rfl
              rw [drainLoop_read_ok n i rest.length _ p objs _ hread, hupd, ih (i + 1),
                seqRun_cons, hsm]

/-- The full pipeline, for any worker count, equals the sequential
file-order run. -/
theorem pipelineRun_eq_seqRun {α β ε : Type} (n : Nat)
    (dec : α → Except ε (List β)) (msgs : List (Int × Except ε α)) :
    pipelineRun n dec msgs = seqRun dec msgs := by
  unfold pipelineRun
  rw [dispatchLoop_map n (workerStep dec) msgs 0 (fun _ => [])]
  exact drain_dispatch_eq n dec msgs 0

theorem seqRun_first_error {α β ε : Type} (dec : α → Except ε (List β))
    (good : List (Int × Except ε α)) (p0 : Int) (mb : Except ε α) (e0 : ε)
    (rest : List (Int × Except ε α))
    (hg : ∀ x ∈ good, ∃ p objs, workerStep dec x = (p, Except.ok objs))
    (hb : workerStep dec (p0, mb) = (p0, Except.error e0)) :
    (seqRun dec (good ++ (p0, mb) :: rest)).2 = some (p0, e0) := by
  induction good with
  | nil =>
      show (seqRun dec ((p0, mb) :: rest)).2 = _
      rw [seqRun_cons, hb]
  | cons x good ih =>
      obtain ⟨p, objs, hx⟩ := hg x (by simp)
      show (seqRun dec (x :: (good ++ (p0, mb) :: rest))).2 = _
      rw [seqRun_cons, hx]
      exact ih (fun y hy => hg y (by simp [hy]))

theorem decodeAt_of_get?_none {β ε : Type} (out : List (β × Int) × Option (Int × ε))
    (k : Nat) (h1 : out.1.get? k = none) (pe : Int × ε) (h2 : out.2 = some pe) :
    decodeAt out k =
      if k = out.1.length then DecodeResult.err pe.2 pe.1 else DecodeResult.eof := by
  unfold decodeAt
  rw [h1, h2]

theorem listGetD_cons_zero {α : Type} (a : α) (l : List α) (d : α) :
    (a :: l).getD 0 d = a := rfl

theorem listGetD_cons_succ {α : Type} (a : α) (l : List α) (d : α) (n : Nat) :
    (a :: l).getD (n + 1) d = l.getD n d := rfl

/-- The `extractMembers` loop succeeds when `memids` is no longer than
the other two parallel arrays and every referenced role index is a
valid stringtable index; the `i`-th member is then built from the
`i`-th entries of the three arrays. -/
theorem extractMembersLoop_success (st : List String) (memids : List Int) :
    ∀ (types roles : List Int) (acc : Int),
    memids.length ≤ types.length → memids.length ≤ roles.length →
    (∀ i, i < memids.length →
      0 ≤ roles.getD i 0 ∧ (roles.getD i 0).toNat < st.length) →
    ∃ ms, extractMembersLoop st acc memids types roles = some ms ∧
      ms.length = memids.length ∧
      ∀ i, i < memids.length →
        ms.get? i = some
          { id := (deltaDecodeFrom acc memids).getD i 0
            type := memberTypeOf (types.getD i 0)
            role := st.getD (roles.getD i 0).toNat "" } := by
  induction memids with
  | nil =>
      intro types roles acc _ _ _
      exact ⟨[], rfl, rfl, by intro i hi; simp at hi⟩
  | cons d ds ih =>
      intro types roles acc hty hro hval
      cases types with
      | nil => simp at hty
      | cons t ts =>
          cases roles with
          | nil => simp at hro
          | cons r rs =>
              have hv0 : 0 ≤ r ∧ r.toNat < st.length := by
                simpa [listGetD_cons_zero] using hval 0 (by simp)
              have hty' : ds.length ≤ ts.length := by simpa using hty
              have hro' : ds.length ≤ rs.length := by simpa using hro
              have hval' : ∀ i, i < ds.length →
                  0 ≤ rs.getD i 0 ∧ (rs.getD i 0).toNat < st.length := by
                intro i hi
                simpa [listGetD_cons_succ] using hval (i + 1) (by simpa using hi)
              obtain ⟨ms, hms, hlen, helem⟩ := ih ts rs (wrap64 (acc + d)) hty' hro' hval'
              refine ⟨{ id := wrap64 (acc + d), type := memberTypeOf t,
                        role := st.get ⟨r.toNat, hv0.2⟩ } :: ms, ?_, ?_, ?_⟩
              · simp only [extractMembersLoop]
                rw [dif_pos hv0, hms]
                rfl
              · simpa using hlen
              · intro i hi
                cases i with
                | zero =>
                    simp only [List.get?_cons_zero, listGetD_cons_zero,
                      deltaDecodeFrom, Option.some.injEq]
                    have hst : st.get ⟨r.toNat, hv0.2⟩ = st.getD r.toNat "" :=
                      (List.getD_eq_get st "" hv0.2).symm
                    rw [hst]
                | succ i =>
                    have hi' : i < ds.length := by simpa using hi
                    have := helem i hi'
                    simpa [deltaDecodeFrom, listGetD_cons_succ] using this

/-- The `extractMembers` loop panics (index out of range) when `memids`
is strictly longer than `types` or than `roles_sid`. -/
theorem extractMembersLoop_none_of_short (st : List String) (memids : List Int) :
    ∀ (types roles : List Int) (acc : Int),
    (types.length < memids.length ∨ roles.length < memids.length) →
    extractMembersLoop st acc memids types roles = none := by
  induction memids with
  | nil =>
      intro types roles acc h
      rcases h with h | h <;> simp at h
  | cons d ds ih =>
      intro types roles acc h
      cases types with
      | nil => cases roles <;> rfl
      | cons t ts =>
          cases roles with
          | nil => rfl
          | cons r rs =>
              have h' : ts.length < ds.length ∨ rs.length < ds.length := by
                rcases h with h | h
                · exact Or.inl (by simpa using h)
                · exact Or.inr (by simpa using h)
              simp only [extractMembersLoop]
              split_ifs with hv
              · rw [ih ts rs (wrap64 (acc + d)) h']
                rfl
              · rfl

/-- The `extractMembers` loop panics when some reachable entry of
`roles_sid` is not a valid stringtable index. -/
theorem extractMembersLoop_none_of_bad_role (st : List String) (memids : List Int) :
    ∀ (types roles : List Int) (acc : Int) (i : Nat),
    i < memids.length → i < types.length → i < roles.length →
    ¬(0 ≤ roles.getD i 0 ∧ (roles.getD i 0).toNat < st.length) →
    extractMembersLoop st acc memids types roles = none := by
  induction memids with
  | nil =>
      intro types roles acc i hi _ _ _
      simp at hi
  | cons d ds ih =>
      intro types roles acc i hi hit hir hbad
      cases types with
      | nil => simp at hit
      | cons t ts =>
          cases roles with
          | nil => simp at hir
          | cons r rs =>
              cases i with
              | zero =>
                  simp only [listGetD_cons_zero] at hbad
                  simp only [extractMembersLoop]
                  rw [dif_neg hbad]
              | succ i =>
                  simp only [extractMembersLoop]
                  split_ifs with hv
                  · rw [ih ts rs (wrap64 (acc + d)) i (by simpa using hi)
                      (by simpa using hit) (by simpa using hir)
                      (by simpa [listGetD_cons_succ] using hbad)]
                    rfl
                  · rfl

/-- C9: `read_next_block` fails `OversizedHeader` exactly when the 4-byte
big-endian header length satisfies `L_hdr ≥ 64*1024` (so a BlobHeader size
of exactly `64*1024` fails), and fails `OversizedBlob` exactly when the
parsed BlobHeader datasize satisfies `datasize ≥ 32*1024*1024` (so exactly
`32*1024*1024` fails). -/
theorem size_limit_checks (b0 b1 b2 b3 : Nat) (ds : Int) :
    (readBlobHeaderSize b0 b1 b2 b3 = Except.error ReadError.oversizedHeader ↔
      64 * 1024 ≤ beUint32 b0 b1 b2 b3) ∧
    (beUint32 b0 b1 b2 b3 = 64 * 1024 →
      readBlobHeaderSize b0 b1 b2 b3 = Except.error ReadError.oversizedHeader) ∧
    (readBlobHeaderCheck ds = Except.error ReadError.oversizedBlob ↔
      32 * 1024 * 1024 ≤ ds) ∧
    (ds = 32 * 1024 * 1024 →
      readBlobHeaderCheck ds = Except.error ReadError.oversizedBlob) := by
  have h1 : readBlobHeaderSize b0 b1 b2 b3 = Except.error ReadError.oversizedHeader ↔
      64 * 1024 ≤ beUint32 b0 b1 b2 b3 := by
    simp only [readBlobHeaderSize, maxBlobHeaderSize]
    split_ifs with h
    · simpa using h
    · simp only [ge_iff_le, not_le] at h
      constructor
      · intro hc; exact absurd hc (by simp)
      · intro hc; omega
  have h2 : readBlobHeaderCheck ds = Except.error ReadError.oversizedBlob ↔
      32 * 1024 * 1024 ≤ ds := by
    unfold readBlobHeaderCheck maxBlobSize
    split_ifs with h
    · simpa using h
    · simp only [ge_iff_le, not_le] at h
      constructor
      · intro hc; exact absurd hc (by simp)
      · intro hc; omega
  exact ⟨h1, fun he => h1.mpr (le_of_eq he.symm), h2, fun he => h2.mpr (le_of_eq he.symm)⟩

/-- Witness for C9 at the two boundary inputs: a header size of exactly
`64*1024` and a datasize of exactly `32*1024*1024` both fail. -/
theorem size_limit_checks_witness :
    readBlobHeaderSize 0 1 0 0 = Except.error ReadError.oversizedHeader ∧
    readBlobHeaderCheck (32 * 1024 * 1024) = Except.error ReadError.oversizedBlob :=
  ⟨(size_limit_checks 0 1 0 0 (32 * 1024 * 1024)).2.1 (by decide),
   (size_limit_checks 0 1 0 0 (32 * 1024 * 1024)).2.2.2 rfl⟩

/-- C8: `start(n)` fails `UnexpectedBlockType` when the first block's type
is not `"OSMHeader"`; with an `"OSMHeader"` first block it fails
`UnsupportedFeature` exactly when `required_features` contains a string
outside `\x7b"OsmSchema-V0.6", "DenseNodes"\x7d`; requiring
`"HistoricalInformation"` therefore fails, and requiring only supported
features succeeds. -/
theorem header_validation (bt : String) (fs : List String) :
    (bt ≠ "OSMHeader" → startHeader bt fs =
      Except.error (StartError.unexpectedBlockType bt)) ∧
    (bt = "OSMHeader" →
      (((∃ f, startHeader bt fs = Except.error (StartError.unsupportedFeature f)) ↔
          ∃ f ∈ fs, f ≠ "OsmSchema-V0.6" ∧ f ≠ "DenseNodes") ∧
        ("HistoricalInformation" ∈ fs →
          ∃ f, startHeader bt fs = Except.error (StartError.unsupportedFeature f)) ∧
        ((∀ f ∈ fs, f = "OsmSchema-V0.6" ∨ f = "DenseNodes") →
          startHeader bt fs = Except.ok ()))) := by
  constructor
  · intro hbt
    unfold startHeader
    rw [if_neg hbt]
  · intro hbt
    subst hbt
    have hsh : startHeader "OSMHeader" fs = decodeOSMHeaderFeatures fs := by
      unfold startHeader
      rw [if_pos rfl]
    have hiff : (∃ f, startHeader "OSMHeader" fs =
        Except.error (StartError.unsupportedFeature f)) ↔
        ∃ f ∈ fs, f ≠ "OsmSchema-V0.6" ∧ f ≠ "DenseNodes" := by
      rw [hsh]
      unfold decodeOSMHeaderFeatures
      cases hf : fs.find? (fun f => !parseCapabilities f) with
      | some f =>
          simp only [hf]
          constructor
          · intro _
            have hp : (!parseCapabilities f) = true := by
              simpa using List.find?_some hf
            exact ⟨f, List.mem_of_find?_eq_some hf, parseCapabilities_bnot.mp hp⟩
          · intro _
            exact ⟨f, rfl⟩
      | none =>
          simp only [hf]
          constructor
          · rintro ⟨f, hc⟩
            exact absurd hc (by simp)
          · rintro ⟨f, hmem, hne⟩
            have := List.find?_eq_none.mp hf f hmem
            exact absurd (parseCapabilities_bnot.mpr hne) this
    refine ⟨hiff, ?_, ?_⟩
    · intro hmem
      exact hiff.mpr ⟨"HistoricalInformation", hmem, by decide, by decide⟩
    · intro hall
      rw [hsh]
      unfold decodeOSMHeaderFeatures
      have hf : fs.find? (fun f => !parseCapabilities f) = none := by
        rw [List.find?_eq_none]
        intro f hmem
        intro hc
        rcases hall f hmem with h | h <;> simp [parseCapabilities, h] at hc
      rw [hf]

/-- Witness for C8: a non-header first block fails; requiring
`"HistoricalInformation"` fails; requiring only the two supported
features succeeds. -/
theorem header_validation_witness :
    startHeader "OSMData" ["OsmSchema-V0.6"] =
      Except.error (StartError.unexpectedBlockType "OSMData") ∧
    (∃ f, startHeader "OSMHeader" ["OsmSchema-V0.6", "HistoricalInformation"] =
      Except.error (StartError.unsupportedFeature f)) ∧
    startHeader "OSMHeader" ["OsmSchema-V0.6", "DenseNodes"] = Except.ok () :=
  ⟨(header_validation "OSMData" ["OsmSchema-V0.6"]).1 (by decide),
   ((header_validation "OSMHeader" ["OsmSchema-V0.6", "HistoricalInformation"]).2
      rfl).2.1 (by decide),
   ((header_validation "OSMHeader" ["OsmSchema-V0.6", "DenseNodes"]).2 rfl).2.2
     (by decide)⟩

/-- C6: blob payload extraction returns `raw` unchanged when present;
otherwise with `zlib_data` present (and the external zlib decompression
succeeding) it returns the decompressed bytes, failing `CorruptBlob`
exactly when the decompressed length differs from the advertised
`raw_size`; with neither field present it fails
`UnsupportedCompression`. -/
theorem getData_payload_extraction (unzlib : List Nat → Except Unit (List Nat)) (b : Blob) :
    (∀ r, b.raw = some r → getData unzlib b = Except.ok r) ∧
    (b.raw = none → ∀ z d, b.zlibData = some z → unzlib z = Except.ok d →
      ((getData unzlib b = Except.error BlobError.corruptBlob ↔
          (d.length : Int) ≠ b.rawSize) ∧
        ((d.length : Int) = b.rawSize → getData unzlib b = Except.ok d))) ∧
    (b.raw = none → b.zlibData = none →
      getData unzlib b = Except.error BlobError.unsupportedCompression) := by
  refine ⟨?_, ?_, ?_⟩
  · intro r hr
    unfold getData
    rw [hr]
  · intro hraw z d hz hd
    unfold getData
    simp only [hraw, hz, hd]
    constructor
    · split_ifs with h
      · simp [h]
      · push_neg at h
        simp [h]
    · intro he
      rw [if_neg (not_not.mpr he)]
  · intro hraw hz
    unfold getData
    rw [hraw, hz]

theorem parseDenseLoop_nil (ctx : BlockCtx) (tsP : Bool) (idA latA lonA tsA : Int)
    (kv lats lons tss : List Int) :
    parseDenseLoop ctx tsP idA latA lonA tsA kv [] lats lons tss = some [] := rfl

theorem parseDenseLoop_cons_false (ctx : BlockCtx) (idA latA lonA tsA d la lo : Int)
    (kv ds lats2 lons2 tss : List Int) :
    parseDenseLoop ctx false idA latA lonA tsA kv (d :: ds) (la :: lats2) (lo :: lons2) tss =
      (parseDenseLoop ctx false (wrap64 (idA + d)) (wrap64 (latA + la)) (wrap64 (lonA + lo))
          tsA (unpackTags ctx.st kv).2 ds lats2 lons2 tss).map
        (fun l =>
          ({ id := wrap64 (idA + d)
             lat := coord ctx.latOffset ctx.granularity (wrap64 (latA + la))
             lon := coord ctx.lonOffset ctx.granularity (wrap64 (lonA + lo))
             tags := (unpackTags ctx.st kv).1
             timestampNs := none } : Node) :: l) := rfl

theorem parseDenseLoop_cons_true (ctx : BlockCtx) (idA latA lonA tsA d la lo t : Int)
    (kv ds lats2 lons2 tss2 : List Int) :
    parseDenseLoop ctx true idA latA lonA tsA kv (d :: ds) (la :: lats2) (lo :: lons2)
        (t :: tss2) =
      (parseDenseLoop ctx true (wrap64 (idA + d)) (wrap64 (latA + la)) (wrap64 (lonA + lo))
          (wrap64 (tsA + t)) (unpackTags ctx.st kv).2 ds lats2 lons2 tss2).map
        (fun l =>
          ({ id := wrap64 (idA + d)
             lat := coord ctx.latOffset ctx.granularity (wrap64 (latA + la))
             lon := coord ctx.lonOffset ctx.granularity (wrap64 (lonA + lo))
             tags := (unpackTags ctx.st kv).1
             timestampNs := some (timeNanos (wrap64 (tsA + t)) ctx.dateGranularity) } :
            Node) :: l) := rfl

/-- Structure of the dense-nodes loop: with parallel arrays of equal
length it succeeds, is length-preserving, and each emitted node carries
the wrapped running sums of the id, lat, lon and timestamp deltas. -/
theorem parseDenseLoop_struct (ctx : BlockCtx) (tsP : Bool) (ids : List Int) :
    ∀ (lats lons tss : List Int) (idA latA lonA tsA : Int) (kv : List Int),
    lats.length = ids.length → lons.length = ids.length →
    (tsP = true → tss.length = ids.length) →
    ∃ l, parseDenseLoop ctx tsP idA latA lonA tsA kv ids lats lons tss = some l ∧
      l.length = ids.length ∧
      ∀ i, i < ids.length →
        (l.get? i).map Node.id = (deltaDecodeFrom idA ids).get? i ∧
        (l.get? i).map Node.lat =
          ((deltaDecodeFrom latA lats).get? i).map
            (fun c => coord ctx.latOffset ctx.granularity c) ∧
        (l.get? i).map Node.lon =
          ((deltaDecodeFrom lonA lons).get? i).map
            (fun c => coord ctx.lonOffset ctx.granularity c) ∧
        (l.get? i).map Node.timestampNs =
          (if tsP then
            ((deltaDecodeFrom tsA tss).get? i).map
              (fun t => some (timeNanos t ctx.dateGranularity))
          else some none) := by
  induction ids with
  | nil =>
      intro lats lons tss idA latA lonA tsA kv _ _ _
      exact ⟨[], parseDenseLoop_nil ctx tsP idA latA lonA tsA kv lats lons tss, rfl,
        by intro i hi; simp at hi⟩
  | cons d ds ih =>
      intro lats lons tss idA latA lonA tsA kv hlat hlon hts
      cases lats with
      | nil => simp at hlat
      | cons la lats2 =>
      cases lons with
      | nil => simp at hlon
      | cons lo lons2 =>
      cases tsP with
      | false =>
          obtain ⟨l2, hl2, hlen2, helem2⟩ :=
            ih lats2 lons2 tss (wrap64 (idA + d)) (wrap64 (latA + la)) (wrap64 (lonA + lo))
              tsA (unpackTags ctx.st kv).2 (by simpa using hlat) (by simpa using hlon)
              (by intro h; cases h)
          refine ⟨({ id := wrap64 (idA + d)
                     lat := coord ctx.latOffset ctx.granularity (wrap64 (latA + la))
                     lon := coord ctx.lonOffset ctx.granularity (wrap64 (lonA + lo))
                     tags := (unpackTags ctx.st kv).1
                     timestampNs := none } : Node) :: l2, ?_, ?_, ?_⟩
          · rw [parseDenseLoop_cons_false, hl2]
            rfl
          · simpa using hlen2
          · intro i hi
            cases i with
            | zero =>
                refine ⟨rfl, rfl, rfl, rfl⟩
            | succ i =>
                have hi' : i < ds.length := by simpa using hi
                have := helem2 i hi'
                simpa [deltaDecodeFrom] using this
      | true =>
          have htss : tss.length = ds.length + 1 := by simpa using hts rfl
          cases tss with
          | nil => simp at htss
          | cons t tss2 =>
          obtain ⟨l2, hl2, hlen2, helem2⟩ :=
            ih lats2 lons2 tss2 (wrap64 (idA + d)) (wrap64 (latA + la)) (wrap64 (lonA + lo))
              (wrap64 (tsA + t)) (unpackTags ctx.st kv).2 (by simpa using hlat)
              (by simpa using hlon) (by intro _; simpa using htss)
          refine ⟨({ id := wrap64 (idA + d)
                     lat := coord ctx.latOffset ctx.granularity (wrap64 (latA + la))
                     lon := coord ctx.lonOffset ctx.granularity (wrap64 (lonA + lo))
                     tags := (unpackTags ctx.st kv).1
                     timestampNs := some (timeNanos (wrap64 (tsA + t))
                       ctx.dateGranularity) } : Node) :: l2, ?_, ?_, ?_⟩
          · rw [parseDenseLoop_cons_true, hl2]
            rfl
          · simpa using hlen2
          · intro i hi
            cases i with
            | zero =>
                refine ⟨rfl, rfl, rfl, rfl⟩
            | succ i =>
                have hi' : i < ds.length := by simpa using hi
                have := helem2 i hi'
                simpa [deltaDecodeFrom] using this

/-- C2: for every input message stream and all worker counts
`n, m ≥ 1`, the pipeline delivers the same sequence of
(entity, position) pairs, and that sequence equals the sequential run
in source-file order. -/
theorem emission_order_worker_count_independent {α β ε : Type} (n m : Nat)
    (hn : 1 ≤ n) (hm : 1 ≤ m) (dec : α → Except ε (List β))
    (msgs : List (Int × Except ε α)) :
    pipelineRun n dec msgs = pipelineRun m dec msgs ∧
    pipelineRun n dec msgs = seqRun dec msgs := by
  have h1 := pipelineRun_eq_seqRun n dec msgs
  have h2 := pipelineRun_eq_seqRun m dec msgs
  exact ⟨h1.trans h2.symm, h1⟩

/-- Witness for C2: a concrete three-block stream decoded with 2 and
with 8 workers yields the identical entity sequence, equal to file
order. -/
theorem emission_order_worker_count_independent_witness :
    pipelineRun 2 (fun b : Int => Except.ok [b, b + 1])
        [(0, Except.ok 1), (5, Except.ok 2), (9, Except.error 7)] =
      pipelineRun 8 (fun b : Int => Except.ok [b, b + 1])
        [(0, Except.ok 1), (5, Except.ok 2), (9, Except.error 7)] ∧
    pipelineRun 2 (fun b : Int => Except.ok [b, b + 1])
        [(0, Except.ok 1), (5, Except.ok 2), (9, Except.error 7)] =
      seqRun (fun b : Int => Except.ok [b, b + 1])
        [(0, Except.ok 1), (5, Except.ok 2), (9, Except.error 7)] :=
  emission_order_worker_count_independent 2 8 (by decide) (by decide)
    (fun b : Int => Except.ok [b, b + 1])
    [(0, Except.ok 1), (5, Except.ok 2), (9, Except.error 7)]

/-- C7: the first error in the pipeline (the first reader error or
block-decoding failure) is delivered to the consumer with the file
position of the offending block; the `Decode()` call at that point
returns the error, every later call returns end-of-stream, and no
entity is delivered at or after the error. -/
theorem first_error_then_eof {α β ε : Type} (n : Nat) (hn : 1 ≤ n)
    (dec : α → Except ε (List β)) (good rest : List (Int × Except ε α))
    (p0 : Int) (mb : Except ε α) (e0 : ε)
    (hg : ∀ x ∈ good, ∃ p objs, workerStep dec x = (p, Except.ok objs))
    (hb : workerStep dec (p0, mb) = (p0, Except.error e0))
    (out : List (β × Int) × Option (Int × ε))
    (hout : out = pipelineRun n dec (good ++ (p0, mb) :: rest)) :
    out.2 = some (p0, e0) ∧
    decodeAt out out.1.length = DecodeResult.err e0 p0 ∧
    (∀ k, out.1.length < k → decodeAt out k = DecodeResult.eof) ∧
    (∀ k b q, decodeAt out k = DecodeResult.entity b q → k < out.1.length) := by
  have hterm : out.2 = some (p0, e0) := by
    rw [hout, pipelineRun_eq_seqRun n dec]
    exact seqRun_first_error dec good p0 mb e0 rest hg hb
  refine ⟨hterm, ?_, ?_, ?_⟩
  · rw [decodeAt_of_get?_none out out.1.length (List.get?_eq_none.mpr le_rfl)
      (p0, e0) hterm, if_pos rfl]
  · intro k hk
    rw [decodeAt_of_get?_none out k (List.get?_eq_none.mpr (le_of_lt hk)) (p0, e0) hterm,
      if_neg (by omega)]
  · intro k b q h
    by_contra hk
    push_neg at hk
    rw [decodeAt_of_get?_none out k (List.get?_eq_none.mpr hk) (p0, e0) hterm] at h
    split_ifs at h

/-- Witness for C7: a stream with one good block, then a reader error
at position 20; the error is delivered with position 20, and every call
after it reports end of stream. -/
theorem first_error_then_eof_witness :
    (pipelineRun 2 (fun b : Int => Except.ok [b])
        [(10, Except.ok 1), (20, Except.error 3), (30, Except.ok 5)]).2 =
      some (20, 3) ∧
    decodeAt (pipelineRun 2 (fun b : Int => Except.ok [b])
        [(10, Except.ok 1), (20, Except.error 3), (30, Except.ok 5)])
      (pipelineRun 2 (fun b : Int => Except.ok [b])
        [(10, Except.ok 1), (20, Except.error 3), (30, Except.ok 5)]).1.length =
      DecodeResult.err 3 20 ∧
    (∀ k, (pipelineRun 2 (fun b : Int => Except.ok [b])
        [(10, Except.ok 1), (20, Except.error 3), (30, Except.ok 5)]).1.length < k →
      decodeAt (pipelineRun 2 (fun b : Int => Except.ok [b])
        [(10, Except.ok 1), (20, Except.error 3), (30, Except.ok 5)]) k =
        DecodeResult.eof) ∧
    (∀ k b q, decodeAt (pipelineRun 2 (fun b : Int => Except.ok [b])
        [(10, Except.ok 1), (20, Except.error 3), (30, Except.ok 5)]) k =
        DecodeResult.entity b q →
      k < (pipelineRun 2 (fun b : Int => Except.ok [b])
        [(10, Except.ok 1), (20, Except.error 3), (30, Except.ok 5)]).1.length) :=
  first_error_then_eof 2 (by decide) (fun b : Int => Except.ok [b])
    [(10, Except.ok 1)] [(30, Except.ok 5)] 20 (Except.error 3) 3
    (by intro x hx
        rw [List.mem_singleton] at hx
        subst hx
        exact ⟨10, [1], rfl⟩)
    rfl _ rfl

/-- C1: for a DenseNodes group whose parallel arrays have equal length
`n` (and whose running sums stay in `int64` range), the decoder emits
exactly `n` nodes in positional order; the `i`-th node's id is the
prefix sum of the id deltas, its latitude is
`1e-9 * (lat_offset + granularity * (lat[0]+...+lat[i]))`, its
longitude the same with the lon data, and, when `denseinfo` timestamps
are present, its timestamp is the prefix sum of the timestamp deltas
scaled by `date_granularity` milliseconds. -/
theorem denseNodes_decode_correct (ctx : BlockCtx) (dn : DenseRaw)
    (hlat : dn.lat.length = dn.id.length) (hlon : dn.lon.length = dn.id.length)
    (htsl : ∀ tss, dn.timestamps = some tss → tss.length = dn.id.length)
    (hid : ∀ j, j < dn.id.length → isInt64 (sumTo dn.id j))
    (hlat64 : ∀ j, j < dn.id.length → isInt64 (sumTo dn.lat j) ∧
      isInt64 (ctx.granularity * sumTo dn.lat j) ∧
      isInt64 (ctx.latOffset + ctx.granularity * sumTo dn.lat j))
    (hlon64 : ∀ j, j < dn.id.length → isInt64 (sumTo dn.lon j) ∧
      isInt64 (ctx.granularity * sumTo dn.lon j) ∧
      isInt64 (ctx.lonOffset + ctx.granularity * sumTo dn.lon j))
    (hts64 : ∀ tss, dn.timestamps = some tss → ∀ j, j < dn.id.length →
      isInt64 (sumTo tss j) ∧ isInt64 (sumTo tss j * ctx.dateGranularity) ∧
      isInt64 (sumTo tss j * ctx.dateGranularity * 1000000)) :
    ∃ l, parseDenseNodes ctx dn = some l ∧ l.length = dn.id.length ∧
      ∀ i, i < dn.id.length →
        (l.get? i).map Node.id = some (sumTo dn.id i) ∧
        (l.get? i).map Node.lat =
          some (((ctx.latOffset + ctx.granularity * sumTo dn.lat i : Int) : ℚ) /
            1000000000) ∧
        (l.get? i).map Node.lon =
          some (((ctx.lonOffset + ctx.granularity * sumTo dn.lon i : Int) : ℚ) /
            1000000000) ∧
        ∀ tss, dn.timestamps = some tss →
          (l.get? i).map Node.timestampNs =
            some (some (sumTo tss i * ctx.dateGranularity * 1000000)) := by
  have hidq : ∀ i, i < dn.id.length →
      (deltaDecodeFrom 0 dn.id).get? i = some (sumTo dn.id i) := by
    intro i hi
    have := deltaDecodeFrom_get? 0 dn.id i hi (by intro j hj; simpa using hid j hj)
    simpa using this
  have hlatq : ∀ i, i < dn.id.length →
      (deltaDecodeFrom 0 dn.lat).get? i = some (sumTo dn.lat i) := by
    intro i hi
    have := deltaDecodeFrom_get? 0 dn.lat i (by omega)
      (by intro j hj; rw [hlat] at hj; simpa using (hlat64 j hj).1)
    simpa using this
  have hlonq : ∀ i, i < dn.id.length →
      (deltaDecodeFrom 0 dn.lon).get? i = some (sumTo dn.lon i) := by
    intro i hi
    have := deltaDecodeFrom_get? 0 dn.lon i (by omega)
      (by intro j hj; rw [hlon] at hj; simpa using (hlon64 j hj).1)
    simpa using this
  have hcoordLat : ∀ i, i < dn.id.length →
      coord ctx.latOffset ctx.granularity (sumTo dn.lat i) =
        ((ctx.latOffset + ctx.granularity * sumTo dn.lat i : Int) : ℚ) / 1000000000 := by
    intro i hi
    exact coord_eq_of_isInt64 (hlat64 i hi).2.1 (hlat64 i hi).2.2
  have hcoordLon : ∀ i, i < dn.id.length →
      coord ctx.lonOffset ctx.granularity (sumTo dn.lon i) =
        ((ctx.lonOffset + ctx.granularity * sumTo dn.lon i : Int) : ℚ) / 1000000000 := by
    intro i hi
    exact coord_eq_of_isInt64 (hlon64 i hi).2.1 (hlon64 i hi).2.2
  cases hcase : dn.timestamps with
  | none =>
      obtain ⟨l, hl, hlen, helem⟩ :=
        parseDenseLoop_struct ctx false dn.id dn.lat dn.lon [] 0 0 0 0 dn.keysVals hlat hlon
          (by intro h; cases h)
      refine ⟨l, ?_, hlen, ?_⟩
      · unfold parseDenseNodes
        rw [hcase]
        exact hl
      · intro i hi
        obtain ⟨h1, h2, h3, _⟩ := helem i hi
        refine ⟨?_, ?_, ?_, ?_⟩
        · rw [h1, hidq i hi]
        · rw [h2, hlatq i hi]
          simp only [Option.map]
          rw [hcoordLat i hi]
        · rw [h3, hlonq i hi]
          simp only [Option.map]
          rw [hcoordLon i hi]
        · intro tss htss
          cases htss
  | some tss0 =>
      obtain ⟨l, hl, hlen, helem⟩ :=
        parseDenseLoop_struct ctx true dn.id dn.lat dn.lon tss0 0 0 0 0 dn.keysVals hlat hlon
          (fun _ => htsl tss0 hcase)
      have htsq : ∀ i, i < dn.id.length →
          (deltaDecodeFrom 0 tss0).get? i = some (sumTo tss0 i) := by
        intro i hi
        have := deltaDecodeFrom_get? 0 tss0 i (by rw [htsl tss0 hcase]; omega)
          (by intro j hj
              rw [htsl tss0 hcase] at hj
              simpa using (hts64 tss0 hcase j hj).1)
        simpa using this
      refine ⟨l, ?_, hlen, ?_⟩
      · unfold parseDenseNodes
        rw [hcase]
        exact hl
      · intro i hi
        obtain ⟨h1, h2, h3, h4⟩ := helem i hi
        refine ⟨?_, ?_, ?_, ?_⟩
        · rw [h1, hidq i hi]
        · rw [h2, hlatq i hi]
          simp only [Option.map]
          rw [hcoordLat i hi]
        · rw [h3, hlonq i hi]
          simp only [Option.map]
          rw [hcoordLon i hi]
        · intro tss htss
          injection htss with htss
          subst htss
          rw [h4]
          simp only [if_pos rfl, htsq i hi, Option.map]
          rw [timeNanos_eq_of_isInt64 (hts64 tss0 hcase i hi).2.1
            (hts64 tss0 hcase i hi).2.2]
          simp

/-- Witness for C1 at the spec's reference input: id deltas
`[10, 5, -3]` with equal-length lat/lon/timestamp arrays yield three
nodes whose ids are the prefix sums `10, 15, 12`. -/
theorem denseNodes_decode_correct_witness :
    ∃ l, parseDenseNodes ⟨[""], 100, 0, 0, 1000⟩
        ⟨[10, 5, -3], [1, 1, 1], [2, 0, 0], some [100, 50, 25], []⟩ = some l ∧
      l.length = 3 ∧
      ∀ i, i < 3 →
        (l.get? i).map Node.id = some (sumTo [10, 5, -3] i) ∧
        (l.get? i).map Node.lat =
          some (((0 + 100 * sumTo [1, 1, 1] i : Int) : ℚ) / 1000000000) ∧
        (l.get? i).map Node.lon =
          some (((0 + 100 * sumTo [2, 0, 0] i : Int) : ℚ) / 1000000000) ∧
        ∀ tss, (some [100, 50, 25] : Option (List Int)) = some tss →
          (l.get? i).map Node.timestampNs =
            some (some (sumTo tss i * 1000 * 1000000)) :=
  denseNodes_decode_correct ⟨[""], 100, 0, 0, 1000⟩
    ⟨[10, 5, -3], [1, 1, 1], [2, 0, 0], some [100, 50, 25], []⟩
    (by decide) (by decide)
    (by intro tss h; injection h with h; subst h; decide)
    (by decide) (by decide) (by decide)
    (by intro tss h; injection h with h; subst h; decide)

/-- C3 (code bug): the sparse-Node path does not behave as specified.
For any non-empty sparse `Node` slice, the decoder builds the first
node with the zero-value timestamp (the `info` field is never read)
and then unconditionally executes `panic("Please test this first")`,
so it neither emits the node with `info.timestamp` converted via
`date_granularity` nor proceeds to the next entry of the group.  This
theorem evaluates the code at a concrete failing input: one sparse node
(id 42, lat 450000000, lon 90000000) with an `info` timestamp. -/
theorem sparse_node_path_panics :
    parseNodes ⟨[""], 100, 0, 0, 1000⟩ [⟨42, [], [], 450000000, 90000000, some 5⟩] =
      Except.error "Please test this first" ∧
    ∀ (ctx : BlockCtx) (n : NodeRaw) (ns : List NodeRaw),
      parseNodes ctx (n :: ns) = Except.error "Please test this first" := by
  constructor
  · rfl
  · intro ctx n ns
    rfl

/-- C10: a Relation member whose `types[]` entry is not one of the
enumerated values `NODE = 0`, `WAY = 1`, `RELATION = 2` is emitted with
ref-type `NodeType` (the zero value of the enumeration) rather than
failing, with the role and the delta-decoded ref-id still taken from
the corresponding array entries. -/
theorem unknown_member_type_defaults_node (st : List String) (rel : RelationRaw)
    (hty : rel.memids.length ≤ rel.types.length)
    (hro : rel.memids.length ≤ rel.rolesSid.length)
    (hval : ∀ i, i < rel.memids.length →
      0 ≤ rel.rolesSid.getD i 0 ∧ (rel.rolesSid.getD i 0).toNat < st.length) :
    ∃ ms, extractMembers st rel = some ms ∧ ms.length = rel.memids.length ∧
      ∀ i, i < rel.memids.length →
        rel.types.getD i 0 ≠ 0 → rel.types.getD i 0 ≠ 1 → rel.types.getD i 0 ≠ 2 →
        ms.get? i = some
          { id := (deltaDecode rel.memids).getD i 0
            type := MemberType.NodeType
            role := st.getD (rel.rolesSid.getD i 0).toNat "" } := by
  obtain ⟨ms, hms, hlen, helem⟩ :=
    extractMembersLoop_success st rel.memids rel.types rel.rolesSid 0 hty hro hval
  refine ⟨ms, hms, hlen, ?_⟩
  intro i hi _ h1 h2
  rw [helem i hi]
  have hmt : memberTypeOf (rel.types.getD i 0) = MemberType.NodeType := by
    unfold memberTypeOf
    rw [if_neg h1, if_neg h2]
  rw [hmt]
  rfl

/-- Witness for C10: a single-member relation with the out-of-range
type value `7` decodes to a member of type `NodeType` with its role and
delta-decoded id intact. -/
theorem unknown_member_type_defaults_node_witness :
    ∃ ms, extractMembers ["outer"] ⟨9, [], [], none, [5], [7], [0]⟩ = some ms ∧
      ms.length = 1 ∧
      ∀ i, i < 1 → (7 : Int) ≠ 0 → (7 : Int) ≠ 1 → (7 : Int) ≠ 2 →
        ms.get? i = some { id := 5, type := MemberType.NodeType, role := "outer" } := by
  obtain ⟨ms, hms, hlen, helem⟩ :=
    unknown_member_type_defaults_node ["outer"] ⟨9, [], [], none, [5], [7], [0]⟩
      (by decide) (by decide) (by decide)
  refine ⟨ms, hms, hlen, ?_⟩
  intro i hi h0 h1 h2
  have hi0 : i = 0 := by omega
  subst hi0
  have := helem 0 (by decide) (by decide) (by decide) (by decide)
  simpa [deltaDecode, deltaDecodeFrom, wrap64] using this

/-- C4 counterexample: decoding a Relation whose three parallel arrays
have the unequal lengths 0, 1, 1 does not fail at all: the block is
decoded successfully (the extra `types`/`roles_sid` entries are
silently ignored), so no `CorruptBlock` error exists to propagate. -/
theorem relation_length_mismatch_no_error :
    parseRelations ⟨[""], 100, 0, 0, 1000⟩ [⟨9, [], [], none, [], [0], [0]⟩] =
      some [⟨9, [], [], none⟩] ∧
    parseRelations ⟨[""], 100, 0, 0, 1000⟩ [⟨9, [], [], none, [], [0], [0]⟩] ≠ none := by
  have h1 : parseRelations ⟨[""], 100, 0, 0, 1000⟩ [⟨9, [], [], none, [], [0], [0]⟩] =
      some [⟨9, [], [], none⟩] := rfl
  refine ⟨h1, ?_⟩
  rw [h1]
  simp

/-- C4 (amended): a length mismatch among a Relation's parallel arrays
is not reported as a `CorruptBlock` error.  When `memids` is longer
than `types` or `roles_sid`, or when a reachable `roles_sid` entry is
not a valid stringtable index, the block decoder hits an out-of-range
index — a runtime panic that crashes the decoder (modelled `none`), not
a propagated error; when `memids` is shorter than the other arrays (and
the reachable role indices are valid) the relation is decoded without
any error, ignoring the extra entries. -/
theorem relation_mismatch_panics_or_ignores (st : List String) (rel : RelationRaw) :
    (rel.types.length < rel.memids.length → extractMembers st rel = none) ∧
    (rel.rolesSid.length < rel.memids.length → extractMembers st rel = none) ∧
    ((∃ i, i < rel.memids.length ∧ i < rel.types.length ∧ i < rel.rolesSid.length ∧
        ¬(0 ≤ rel.rolesSid.getD i 0 ∧ (rel.rolesSid.getD i 0).toNat < st.length)) →
      extractMembers st rel = none) ∧
    (rel.memids.length ≤ rel.types.length → rel.memids.length ≤ rel.rolesSid.length →
      (∀ i, i < rel.memids.length →
        0 ≤ rel.rolesSid.getD i 0 ∧ (rel.rolesSid.getD i 0).toNat < st.length) →
      ∃ ms, extractMembers st rel = some ms ∧ ms.length = rel.memids.length) := by
  refine ⟨?_, ?_, ?_, ?_⟩
  · intro h
    exact extractMembersLoop_none_of_short st rel.memids rel.types rel.rolesSid 0 (Or.inl h)
  · intro h
    exact extractMembersLoop_none_of_short st rel.memids rel.types rel.rolesSid 0 (Or.inr h)
  · rintro ⟨i, hi, hit, hir, hbad⟩
    exact extractMembersLoop_none_of_bad_role st rel.memids rel.types rel.rolesSid 0 i
      hi hit hir hbad
  · intro hty hro hval
    obtain ⟨ms, hms, hlen, _⟩ :=
      extractMembersLoop_success st rel.memids rel.types rel.rolesSid 0 hty hro hval
    exact ⟨ms, hms, hlen⟩

/-- Witness for C4's amended claim: `memids` longer than `types` panics;
`memids` longer than `roles_sid` panics; an out-of-range stringtable
index panics; `memids` shorter than the others decodes successfully. -/
theorem relation_mismatch_panics_or_ignores_witness :
    extractMembers [""] ⟨1, [], [], none, [1, 2], [0], [0, 0]⟩ = none ∧
    extractMembers [""] ⟨2, [], [], none, [1, 2], [0, 0], [0]⟩ = none ∧
    extractMembers [""] ⟨3, [], [], none, [1], [0], [5]⟩ = none ∧
    ∃ ms, extractMembers [""] ⟨4, [], [], none, [1], [0, 0], [0, 0]⟩ = some ms ∧
      ms.length = 1 :=
  ⟨(relation_mismatch_panics_or_ignores [""] ⟨1, [], [], none, [1, 2], [0], [0, 0]⟩).1
      (by decide),
   (relation_mismatch_panics_or_ignores [""] ⟨2, [], [], none, [1, 2], [0, 0], [0]⟩).2.1
      (by decide),
   (relation_mismatch_panics_or_ignores [""] ⟨3, [], [], none, [1], [0], [5]⟩).2.2.1
      ⟨0, by decide, by decide, by decide, by decide⟩,
   (relation_mismatch_panics_or_ignores [""] ⟨4, [], [], none, [1], [0, 0], [0, 0]⟩).2.2.2
      (by decide) (by decide) (by decide)⟩

/-- C5: for a Way with delta-encoded `refs` and a Relation with
delta-encoded `memids`, the emitted absolute sequences (`nodeIDs`,
respectively member ids) are length-preserving and their `i`-th entries
equal the prefix sums of the first `i+1` deltas from a base of 0. -/
theorem delta_refs_memids_prefix_sums (ctx : BlockCtx) (w : WayRaw)
    (st : List String) (rel : RelationRaw)
    (hw : ∀ j, j < w.refs.length → isInt64 (sumTo w.refs j))
    (hm : ∀ j, j < rel.memids.length → isInt64 (sumTo rel.memids j))
    (hty : rel.memids.length ≤ rel.types.length)
    (hro : rel.memids.length ≤ rel.rolesSid.length)
    (hval : ∀ i, i < rel.memids.length →
      0 ≤ rel.rolesSid.getD i 0 ∧ (rel.rolesSid.getD i 0).toNat < st.length) :
    (∀ wy ∈ parseWays ctx [w], wy.nodeIDs.length = w.refs.length ∧
      ∀ i, i < w.refs.length → wy.nodeIDs.get? i = some (sumTo w.refs i)) ∧
    (∃ ms, extractMembers st rel = some ms ∧ ms.length = rel.memids.length ∧
      ∀ i, i < rel.memids.length → (ms.get? i).map Member.id =
        some (sumTo rel.memids i)) := by
  constructor
  · intro wy hwy
    have hwy2 : wy = ⟨w.id, extractTags ctx.st w.keys w.vals, deltaDecode w.refs,
        w.info.map (fun t => timeNanos t ctx.dateGranularity)⟩ := by
      simpa [parseWays] using hwy
    subst hwy2
    constructor
    · exact deltaDecodeFrom_length 0 w.refs
    · intro i hi
      exact deltaDecode_get? w.refs i hi hw
  · obtain ⟨ms, hms, hlen, helem⟩ :=
      extractMembersLoop_success st rel.memids rel.types rel.rolesSid 0 hty hro hval
    refine ⟨ms, hms, hlen, ?_⟩
    intro i hi
    have hdd : (deltaDecodeFrom 0 rel.memids).getD i 0 = sumTo rel.memids i := by
      have hget := deltaDecode_get? rel.memids i hi hm
      rw [List.getD_eq_getD_get?]
      rw [deltaDecode] at hget
      rw [hget]
      rfl
    rw [helem i hi, hdd]
    rfl

/-- Witness for C5: `refs = [100, 1, 1, -1]` materialises to
`NodeIDs = [100, 101, 102, 101]`, and `memids = [5, 2, -3]` to member
ids `[5, 7, 4]`. -/
theorem delta_refs_memids_prefix_sums_witness :
    (∀ wy ∈ parseWays ⟨[""], 100, 0, 0, 1000⟩ [⟨7, [], [], [100, 1, 1, -1], none⟩],
      wy.nodeIDs.length = 4 ∧
      ∀ i, i < 4 →
        wy.nodeIDs.get? i = some (sumTo [100, 1, 1, -1] i)) ∧
    (∃ ms, extractMembers ["", "outer", "inner"]
        ⟨9, [], [], none, [5, 2, -3], [0, 1, 2], [1, 2, 1]⟩ = some ms ∧
      ms.length = 3 ∧
      ∀ i, i < 3 → (ms.get? i).map Member.id = some (sumTo [5, 2, -3] i)) :=
  delta_refs_memids_prefix_sums ⟨[""], 100, 0, 0, 1000⟩
    ⟨7, [], [], [100, 1, 1, -1], none⟩ ["", "outer", "inner"]
    ⟨9, [], [], none, [5, 2, -3], [0, 1, 2], [1, 2, 1]⟩
    (by decide) (by decide) (by decide) (by decide) (by decide)

/-- Witness for C6: a raw blob passes through; a zlib blob whose
decompressed length is one byte short of `raw_size` fails `CorruptBlob`;
a blob with matching length succeeds; a blob with neither field fails
`UnsupportedCompression`. -/
theorem getData_payload_extraction_witness :
    getData (fun z => Except.ok z) ⟨some [1, 2, 3], none, 99⟩ = Except.ok [1, 2, 3] ∧
    getData (fun z => Except.ok z) ⟨none, some [1, 2], 3⟩ =
      Except.error BlobError.corruptBlob ∧
    getData (fun z => Except.ok z) ⟨none, some [1, 2], 2⟩ = Except.ok [1, 2] ∧
    getData (fun z => Except.ok z) ⟨none, none, 0⟩ =
      Except.error BlobError.unsupportedCompression :=
  ⟨(getData_payload_extraction (fun z => Except.ok z) ⟨some [1, 2, 3], none, 99⟩).1
      [1, 2, 3] rfl,
   (((getData_payload_extraction (fun z => Except.ok z) ⟨none, some [1, 2], 3⟩).2.1
      rfl [1, 2] [1, 2] rfl rfl).1).mpr (by decide),
   ((getData_payload_extraction (fun z => Except.ok z) ⟨none, some [1, 2], 2⟩).2.1
      rfl [1, 2] [1, 2] rfl rfl).2 (by decide),
   (getData_payload_extraction (fun z => Except.ok z) ⟨none, none, 0⟩).2.2 rfl rfl⟩

end Osmpbf
